import Mathlib

/-!
Verification development for the SMS sign-up repository.

The Python services (`app/phone_verification_service.py`, `app/oauth_service.py`)
are shallowly embedded: the database is a record of lists of rows, `datetime`
values become `Nat` time stamps (seconds), SQL queries become executable list
functions, and each service call is a pure function from the database and the
current time to the new database plus the call's return value.  Python's
`random` and the database's id generator are passed in as explicit arguments.
Python's `str.isdigit` is modelled on ASCII digits via `Char.isDigit`.
-/

namespace SmsSignup

/-- Embeds `PhoneVerificationService._clean_phone_number`, working on the
character list of the input string.  Mirrors the Python line by line:
filter keeps digits and every `+` (not only a leading one); then the three
prefix rules fire on the *character* length of the filtered string. -/
def cleanChars (l : List Char) : List Char :=
  let cleaned := l.filter fun c => c.isDigit || c == '+'
  if cleaned.length = 11 ∧ cleaned.head? = some '1' then
    '+' :: cleaned
  else if cleaned.length = 10 then
    '+' :: '1' :: cleaned
  else if cleaned.head? ≠ some '+' then
    '+' :: cleaned
  else
    cleaned

/-- `PhoneVerificationService._clean_phone_number` on strings. -/
def clean_phone_number (s : String) : String :=
  String.mk (cleanChars s.data)

/-- The intermediate value `cleaned` computed by the first statement of
`_clean_phone_number`: `"".join(c for c in phone if c.isdigit() or c == "+")`. -/
def cleaned_phone (s : String) : String :=
  String.mk (s.data.filter fun c => c.isDigit || c == '+')

/-- The property claim C5 asserts of the intermediate cleaned string:
only digits, apart from at most one `+` which, if present, is the first
character. -/
def onlyLeadingPlus (s : String) : Prop :=
  match s.data with
  | [] => True
  | c :: rest => (c.isDigit = true ∨ c = '+') ∧ rest.all Char.isDigit = true

instance (s : String) : Decidable (onlyLeadingPlus s) := by
  unfold onlyLeadingPlus
  cases s.data with
  | nil => exact inferInstanceAs (Decidable True)
  | cons c rest => exact inferInstanceAs (Decidable (_ ∧ _))

lemma cleanChars_filter_eq (l : List Char) :
    (cleanChars l).filter (fun c => c.isDigit || c == '+') = cleanChars l := by
  apply List.filter_eq_self.mpr
  intro c hc
  simp only [cleanChars] at hc
  split at hc
  · rcases List.mem_cons.mp hc with h | h
    · subst h; decide
    · exact (List.mem_filter.mp h).2
  · split at hc
    · rcases List.mem_cons.mp hc with h | h
      · subst h; decide
      · rcases List.mem_cons.mp h with h2 | h2
        · subst h2; decide
        · exact (List.mem_filter.mp h2).2
    · split at hc
      · rcases List.mem_cons.mp hc with h | h
        · subst h; decide
        · exact (List.mem_filter.mp h).2
      · exact (List.mem_filter.mp hc).2

lemma cleanChars_head (l : List Char) :
    (cleanChars l).head? = some '+' := by
  simp only [cleanChars]
  split
  · rfl
  · split
    · rfl
    · split
      · rfl
      · next h => exact not_ne_iff.mp h

lemma cleanChars_idem (l : List Char) (h : (cleanChars l).length ≠ 10) :
    cleanChars (cleanChars l) = cleanChars l := by
  rw [cleanChars]
  simp only [cleanChars_filter_eq, cleanChars_head, h]
  simp

/-- `VerificationStatus` from `app/models.py`. -/
inductive VerificationStatus where
  | pending
  | verified
  | failed
  | expired
deriving DecidableEq, Repr

/-- `OAuthProvider` from `app/models.py`. -/
inductive OAuthProvider where
  | google
  | facebook
  | microsoft
  | apple
deriving DecidableEq, Repr

/-- `User` row from `app/models.py`.  `id` is `Option` because a transient
object has no id until the database assigns one (`user.id is None` checks in
the services).  Timestamps are `Nat` seconds. -/
structure User where
  id : Option Nat
  email : String
  first_name : String
  phone_number : Option String
  is_phone_verified : Bool
  is_active : Bool
  created_at : Nat
  updated_at : Nat
deriving DecidableEq, Repr

/-- `PhoneVerification` row from `app/models.py`.  Rows modelled here are
always persisted, so `id` is a plain `Nat`. -/
structure PhoneVerification where
  id : Nat
  user_id : Nat
  phone_number : String
  verification_code : String
  status : VerificationStatus
  attempts : Nat
  max_attempts : Nat
  expires_at : Nat
  verified_at : Option Nat
  created_at : Nat
  updated_at : Nat
  sms_service_id : Option String
  sms_service_status : Option String
  error_message : Option String
deriving DecidableEq, Repr

/-- The profile dictionary obtained from the identity provider
(`oauth_data` in `app/oauth_service.py`); absent keys are `none`. -/
structure OAuthData where
  id : String
  email : String
  given_name : Option String
  family_name : Option String
deriving DecidableEq, Repr

/-- `OAuthAccount` row from `app/models.py`. -/
structure OAuthAccount where
  id : Nat
  user_id : Nat
  provider : OAuthProvider
  provider_user_id : String
  provider_email : String
  access_token : Option String
  refresh_token : Option String
  token_expires_at : Option Nat
  profile_data : OAuthData
  created_at : Nat
  updated_at : Nat
deriving DecidableEq, Repr

/-- The database the services read and write through `get_session()`. -/
structure DB where
  users : List User
  verifications : List PhoneVerification
  oauth_accounts : List OAuthAccount
deriving DecidableEq, Repr

/-- One step of the fold implementing
`select(...).order_by(desc(created_at)).first()`. -/
def pickStep (p : PhoneVerification → Bool) (acc : Option PhoneVerification)
    (r : PhoneVerification) : Option PhoneVerification :=
  if p r then
    match acc with
    | none => some r
    | some a => if a.created_at < r.created_at then some r else acc
  else acc

/-- Models `session.exec(select(PhoneVerification).where(p)
.order_by(desc(PhoneVerification.created_at))).first()`: the first row, in
table order, among those satisfying `p` with maximal `created_at`. -/
def pickLatest (p : PhoneVerification → Bool) (rows : List PhoneVerification) :
    Option PhoneVerification :=
  rows.foldl (pickStep p) none

/-- The `verify_code` lookup: most recent PENDING row for the user and the
cleaned phone number. -/
def findPendingVerification (db : DB) (uid : Nat) (phone : String) :
    Option PhoneVerification :=
  pickLatest
    (fun r => decide (r.user_id = uid ∧ r.phone_number = phone ∧
      r.status = VerificationStatus.pending))
    db.verifications

/-- `session.add` + `session.commit` on a fetched row: the row with the same
id is replaced by the mutated object. -/
def updateVerificationRow (db : DB) (v : PhoneVerification) : DB :=
  { db with verifications := db.verifications.map fun r => if r.id = v.id then v else r }

/-- `session.add(user)` + `session.commit`: the user row with the same id is
replaced by the mutated object. -/
def updateUserRow (db : DB) (u : User) : DB :=
  { db with users := db.users.map fun x => if x.id = u.id then u else x }

/-- `PhoneVerificationService.verify_code`.  `now` is the value
`datetime.utcnow()` takes during the call.  Returns the updated database
together with the `(success, verification, message)` triple; the returned
record models the `session.get` re-fetch of the row just committed. -/
def verify_code (db : DB) (now : Nat) (user : User) (phone_number code : String) :
    DB × Bool × Option PhoneVerification × String :=
  match user.id with
  | none => (db, false, none, "Invalid user")
  | some uid =>
    let cleaned := clean_phone_number phone_number
    match findPendingVerification db uid cleaned with
    | none => (db, false, none, "No verification request found")
    | some v =>
      if now > v.expires_at then
        let v' := { v with status := VerificationStatus.expired, updated_at := now }
        (updateVerificationRow db v', false, some v', "Verification code has expired")
      else if v.attempts ≥ v.max_attempts then
        let v' := { v with status := VerificationStatus.failed, updated_at := now }
        (updateVerificationRow db v', false, some v', "Maximum attempts exceeded")
      else
        let v1 := { v with attempts := v.attempts + 1, updated_at := now }
        if v.verification_code = code then
          let v' := { v1 with status := VerificationStatus.verified, verified_at := some now }
          let u' := { user with
                      phone_number := some cleaned
                      is_phone_verified := true
                      updated_at := now }
          (updateUserRow (updateVerificationRow db v') u', true, some v',
            "Phone number verified successfully")
        else
          if v1.attempts ≥ v1.max_attempts then
            let v' := { v1 with status := VerificationStatus.failed }
            (updateVerificationRow db v', false, some v', "Maximum attempts exceeded")
          else
            (updateVerificationRow db v1, false, some v1,
              "Invalid code. " ++ toString (v1.max_attempts - v1.attempts) ++
                " attempts remaining")

/-- The `_get_recent_verification` query predicate:
`created_at > utcnow() - timedelta(minutes=1)` is `created_at + 60 > now`. -/
def recentVerificationQuery (uid : Nat) (phone : String) (now : Nat)
    (r : PhoneVerification) : Bool :=
  decide (r.user_id = uid ∧ r.phone_number = phone ∧ r.created_at + 60 > now ∧
    r.status = VerificationStatus.pending)

/-- `PhoneVerificationService._can_send_new_code`:
`utcnow() > created_at + timedelta(minutes=1)`. -/
def can_send_new_code (now : Nat) (v : PhoneVerification) : Bool :=
  decide (now > v.created_at + 60)

/-- The row `send_verification_code` inserts: model defaults `attempts = 0`,
`max_attempts = 3`, `expires_at = now + 15 * 60`, demo SMS metadata. -/
def freshVerification (uid now newId : Nat) (cleaned newCode smsId : String) :
    PhoneVerification :=
  { id := newId, user_id := uid, phone_number := cleaned,
    verification_code := newCode, status := VerificationStatus.pending,
    attempts := 0, max_attempts := 3, expires_at := now + 15 * 60,
    verified_at := none, created_at := now, updated_at := now,
    sms_service_id := some smsId, sms_service_status := some "sent",
    error_message := none }

/-- `PhoneVerificationService.send_verification_code`.  `now` models
`datetime.utcnow()`; `newId` is the id the database would assign to a newly
inserted row; `newCode` is the output of `generate_verification_code`;
`smsId` the random demo SMS id. -/
def send_verification_code (db : DB) (now : Nat) (newId : Nat) (newCode smsId : String)
    (user : User) (phone_number : String) : DB × Option PhoneVerification :=
  match user.id with
  | none => (db, none)
  | some uid =>
    let cleaned := clean_phone_number phone_number
    let fresh := freshVerification uid now newId cleaned newCode smsId
    match pickLatest (recentVerificationQuery uid cleaned now) db.verifications with
    | some r =>
      if can_send_new_code now r then
        ({ db with verifications := db.verifications ++ [fresh] }, some fresh)
      else
        (db, some r)
    | none =>
      ({ db with verifications := db.verifications ++ [fresh] }, some fresh)

/-- `PhoneVerificationService.get_verification_status`: most recent row for
the user and cleaned phone number, with no condition on `status`. -/
def get_verification_status (db : DB) (user : User) (phone_number : String) :
    Option PhoneVerification :=
  match user.id with
  | none => none
  | some uid =>
    let cleaned := clean_phone_number phone_number
    pickLatest (fun r => decide (r.user_id = uid ∧ r.phone_number = cleaned))
      db.verifications

/-- `session.get(User, i)`. -/
def getUserById (db : DB) (i : Option Nat) : Option User :=
  match i with
  | none => none
  | some n => db.users.find? (fun x => decide (x.id = some n))

/-- `OAuthService.create_or_update_user`.  `now` models `datetime.utcnow()`;
`newUserId` and `newAccountId` are the ids the database would assign to new
rows (so the `new_user.id is not None` guard holds in the create branch).
Mirrors the asymmetry of the source: the comparison defaults an absent
`given_name` to `""`, the assignment defaults it to the stored name. -/
def create_or_update_user (db : DB) (now : Nat) (newUserId newAccountId : Nat)
    (oauth_data : OAuthData) (provider : OAuthProvider) : DB × Option User :=
  match db.users.find? (fun x => decide (x.email = oauth_data.email)) with
  | some existing =>
    if existing.first_name ≠ oauth_data.given_name.getD "" then
      let u' := { existing with
                  first_name := oauth_data.given_name.getD existing.first_name
                  updated_at := now }
      let db' := updateUserRow db u'
      (db', getUserById db' existing.id)
    else
      (db, getUserById db existing.id)
  | none =>
    let nu : User :=
      { id := some newUserId, email := oauth_data.email,
        first_name := oauth_data.given_name.getD "", phone_number := none,
        is_phone_verified := false, is_active := true,
        created_at := now, updated_at := now }
    let acct : OAuthAccount :=
      { id := newAccountId, user_id := newUserId, provider := provider,
        provider_user_id := oauth_data.id, provider_email := oauth_data.email,
        access_token := none, refresh_token := none, token_expires_at := none,
        profile_data := oauth_data, created_at := now, updated_at := now }
    let db2 := { db with
                 users := db.users ++ [nu]
                 oauth_accounts := db.oauth_accounts ++ [acct] }
    (db2, getUserById db2 (some newUserId))

lemma pickStep_false {p : PhoneVerification → Bool} {r : PhoneVerification}
    (acc : Option PhoneVerification) (hp : p r = false) :
    pickStep p acc r = acc := by
  simp [pickStep, hp]

lemma foldl_pickStep_all_false (p : PhoneVerification → Bool) :
    ∀ (rows : List PhoneVerification) (acc : Option PhoneVerification),
      (∀ r ∈ rows, p r = false) → rows.foldl (pickStep p) acc = acc := by
  intro rows
  induction rows with
  | nil => intro acc _; rfl
  | cons r rs ih =>
    intro acc h
    rw [List.foldl_cons, pickStep_false acc (h r (List.mem_cons_self r rs))]
    exact ih acc fun s hs => h s (List.mem_cons_of_mem r hs)

lemma pickLatest_eq_none {p : PhoneVerification → Bool} {rows : List PhoneVerification}
    (h : ∀ r ∈ rows, p r = false) : pickLatest p rows = none :=
  foldl_pickStep_all_false p rows none h

lemma pickLatest_append_single {p : PhoneVerification → Bool}
    {xs : List PhoneVerification} {y : PhoneVerification}
    (hxs : ∀ r ∈ xs, p r = false) (hy : p y = true) :
    pickLatest p (xs ++ [y]) = some y := by
  unfold pickLatest
  rw [List.foldl_append, foldl_pickStep_all_false p xs none hxs]
  simp [pickStep, hy]

lemma foldl_pickStep_mem (p : PhoneVerification → Bool) :
    ∀ (rows : List PhoneVerification) (acc : Option PhoneVerification)
      (v : PhoneVerification), rows.foldl (pickStep p) acc = some v →
      acc = some v ∨ (v ∈ rows ∧ p v = true) := by
  intro rows
  induction rows with
  | nil => intro acc v h; exact Or.inl h
  | cons r rs ih =>
    intro acc v h
    rw [List.foldl_cons] at h
    rcases ih (pickStep p acc r) v h with h1 | h1
    · cases hp : p r with
      | false =>
        rw [pickStep_false acc hp] at h1
        exact Or.inl h1
      | true =>
        cases acc with
        | none =>
          have hrv : r = v := by simpa [pickStep, hp] using h1
          exact Or.inr ⟨hrv ▸ List.mem_cons_self r rs, hrv ▸ hp⟩
        | some a =>
          by_cases hlt : a.created_at < r.created_at
          · have hrv : r = v := by simpa [pickStep, hp, hlt] using h1
            exact Or.inr ⟨hrv ▸ List.mem_cons_self r rs, hrv ▸ hp⟩
          · have : some a = some v := by simpa [pickStep, hp, hlt] using h1
            exact Or.inl this
    · exact Or.inr ⟨List.mem_cons_of_mem r h1.1, h1.2⟩

lemma pickLatest_mem {p : PhoneVerification → Bool} {rows : List PhoneVerification}
    {v : PhoneVerification} (h : pickLatest p rows = some v) :
    v ∈ rows ∧ p v = true := by
  rcases foldl_pickStep_mem p rows none v h with h1 | h1
  · cases h1
  · exact h1

lemma foldl_pickStep_mono (p : PhoneVerification → Bool) :
    ∀ (rows : List PhoneVerification) (b v : PhoneVerification),
      rows.foldl (pickStep p) (some b) = some v →
      b.created_at ≤ v.created_at := by
  intro rows
  induction rows with
  | nil =>
    intro b v h
    cases h
    exact Nat.le_refl _
  | cons r rs ih =>
    intro b v h
    rw [List.foldl_cons] at h
    cases hp : p r with
    | false =>
      rw [pickStep_false (some b) hp] at h
      exact ih b v h
    | true =>
      by_cases hlt : b.created_at < r.created_at
      · have hs : pickStep p (some b) r = some r := by simp [pickStep, hp, hlt]
        rw [hs] at h
        exact Nat.le_trans (Nat.le_of_lt hlt) (ih r v h)
      · have hs : pickStep p (some b) r = some b := by simp [pickStep, hp, hlt]
        rw [hs] at h
        exact ih b v h

lemma foldl_pickStep_ge (p : PhoneVerification → Bool) :
    ∀ (rows : List PhoneVerification) (acc : Option PhoneVerification)
      (v : PhoneVerification), rows.foldl (pickStep p) acc = some v →
      ∀ s ∈ rows, p s = true → s.created_at ≤ v.created_at := by
  intro rows
  induction rows with
  | nil => intro acc v _ s hs; cases hs
  | cons r rs ih =>
    intro acc v h s hs hps
    rw [List.foldl_cons] at h
    rcases List.mem_cons.mp hs with rfl | hmem
    · have hstep : ∃ b, pickStep p acc s = some b ∧ s.created_at ≤ b.created_at := by
        cases acc with
        | none => exact ⟨s, by simp [pickStep, hps], Nat.le_refl _⟩
        | some a =>
          by_cases hlt : a.created_at < s.created_at
          · exact ⟨s, by simp [pickStep, hps, hlt], Nat.le_refl _⟩
          · exact ⟨a, by simp [pickStep, hps, hlt], Nat.le_of_not_lt hlt⟩
      obtain ⟨b, hb, hsb⟩ := hstep
      rw [hb] at h
      exact Nat.le_trans hsb (foldl_pickStep_mono p rs b v h)
    · exact ih (pickStep p acc r) v h s hmem hps

lemma pickLatest_ge {p : PhoneVerification → Bool} {rows : List PhoneVerification}
    {v : PhoneVerification} (h : pickLatest p rows = some v) :
    ∀ s ∈ rows, p s = true → s.created_at ≤ v.created_at :=
  foldl_pickStep_ge p rows none v h

lemma mem_update_verifications {db : DB} {v' w : PhoneVerification}
    (hw : w ∈ (updateVerificationRow db v').verifications) :
    w = v' ∨ w ∈ db.verifications := by
  rcases List.mem_map.mp hw with ⟨r, hr, hw'⟩
  by_cases h : r.id = v'.id
  · left
    rw [← hw']
    simp [h]
  · right
    rw [← hw']
    simp only [if_neg h]
    exact hr

lemma find_replace_user (uid : Nat) (u' : User) (hu' : u'.id = some uid) :
    ∀ (l : List User) (eu : User),
      l.find? (fun x => decide (x.id = some uid)) = some eu →
      ((l.map fun x => if x.id = u'.id then u' else x).find?
        (fun x => decide (x.id = some uid))) = some u' := by
  intro l
  induction l with
  | nil => intro eu h; cases h
  | cons a l ih =>
    intro eu h
    by_cases ha : a.id = some uid
    · rw [List.map_cons]
      rw [if_pos (by rw [ha, hu'])]
      exact List.find?_cons_of_pos _ (by simp [hu'])
    · rw [List.find?_cons_of_neg _ (by simp [ha])] at h
      rw [List.map_cons, if_neg (fun hc => ha (hc.trans hu'))]
      rw [List.find?_cons_of_neg _ (by simp [ha])]
      exact ih eu h

/-- Sample persisted user for concrete instantiations. -/
def sampleUser : User :=
  { id := some 1, email := "demo@example.com", first_name := "Demo",
    phone_number := none, is_phone_verified := false, is_active := true,
    created_at := 0, updated_at := 0 }

/-- Sample pending verification row: code `"123456"`, expires at 900. -/
def sampleVer : PhoneVerification :=
  { id := 7, user_id := 1, phone_number := "+15551234567",
    verification_code := "123456", status := VerificationStatus.pending,
    attempts := 0, max_attempts := 3, expires_at := 900, verified_at := none,
    created_at := 0, updated_at := 0, sms_service_id := none,
    sms_service_status := none, error_message := none }

/-- Sample database holding `sampleUser` and `sampleVer`. -/
def sampleDB : DB :=
  { users := [sampleUser], verifications := [sampleVer], oauth_accounts := [] }

/-- Sample database holding `sampleUser` and no verification rows. -/
def emptyVerDB : DB :=
  { users := [sampleUser], verifications := [], oauth_accounts := [] }

/-- Claim C1: on the PENDING, non-expired record found for the user and the
canonical phone number, with attempts < max_attempts, a submitted code equal
to the stored code increments attempts, marks the record VERIFIED with
verified_at set, updates the owning user's phone_number to the record's
canonical phone number and is_phone_verified to true in the same returned
database, and reports success with "Phone number verified successfully". -/
theorem verify_code_success_correct
    (db : DB) (user : User) (uid now : Nat) (phone code : String)
    (v : PhoneVerification)
    (hu : user.id = some uid)
    (hfind : findPendingVerification db uid (clean_phone_number phone) = some v)
    (hexp : now ≤ v.expires_at)
    (hatt : v.attempts < v.max_attempts)
    (hcode : v.verification_code = code) :
    v.phone_number = clean_phone_number phone ∧
    verify_code db now user phone code =
      (updateUserRow
        (updateVerificationRow db
          { v with
            attempts := v.attempts + 1
            updated_at := now
            status := VerificationStatus.verified
            verified_at := some now })
        { user with
          phone_number := some v.phone_number
          is_phone_verified := true
          updated_at := now },
       true,
       some { v with
              attempts := v.attempts + 1
              updated_at := now
              status := VerificationStatus.verified
              verified_at := some now },
       "Phone number verified successfully") := by
  have hphone : v.phone_number = clean_phone_number phone := by
    have hp := (pickLatest_mem hfind).2
    simp only [decide_eq_true_eq] at hp
    exact hp.2.1
  refine ⟨hphone, ?_⟩
  simp only [verify_code, hu, hfind]
  rw [if_neg (Nat.not_lt.mpr hexp), if_neg (Nat.not_le.mpr hatt), if_pos hcode, hphone]

/-- Witness for `verify_code_success_correct` on `sampleDB`. -/
theorem verify_code_success_witness :
    findPendingVerification sampleDB 1 (clean_phone_number "5551234567") = some sampleVer ∧
    (verify_code sampleDB 100 sampleUser "5551234567" "123456").2.1 = true := by
  have h := verify_code_success_correct sampleDB sampleUser 1 100 "5551234567" "123456"
    sampleVer rfl (by decide) (by decide) (by decide) (by decide)
  exact ⟨by decide, by rw [h.2]⟩

/-- Claim C3: on a PENDING record found for the user and the canonical phone
number whose expires_at lies strictly before `now`, any submitted code marks
the record EXPIRED and returns failure with "Verification code has expired";
attempts are not incremented and the users table is unchanged. -/
theorem verify_code_expired_correct
    (db : DB) (user : User) (uid now : Nat) (phone code : String)
    (v : PhoneVerification)
    (hu : user.id = some uid)
    (hfind : findPendingVerification db uid (clean_phone_number phone) = some v)
    (hexp : now > v.expires_at) :
    verify_code db now user phone code =
      (updateVerificationRow db { v with status := VerificationStatus.expired, updated_at := now },
       false,
       some { v with status := VerificationStatus.expired, updated_at := now },
       "Verification code has expired") ∧
    ({ v with status := VerificationStatus.expired, updated_at := now } :
      PhoneVerification).attempts = v.attempts ∧
    (updateVerificationRow db
      { v with status := VerificationStatus.expired, updated_at := now }).users = db.users := by
  refine ⟨?_, rfl, rfl⟩
  simp only [verify_code, hu, hfind]
  rw [if_pos hexp]

/-- Witness for `verify_code_expired_correct` on `sampleDB` at time 1000,
past the sample record's expiry 900, submitting the correct code. -/
theorem verify_code_expired_witness :
    (1000 : Nat) > sampleVer.expires_at ∧
    (verify_code sampleDB 1000 sampleUser "5551234567" "123456").2.2.2 =
      "Verification code has expired" := by
  have h := verify_code_expired_correct sampleDB sampleUser 1 1000 "5551234567" "123456"
    sampleVer rfl (by decide) (by decide)
  exact ⟨by decide, by rw [h.1]⟩

/-- Claim C7: when no PENDING verification row exists for the user id and the
canonical phone number, `verify_code` returns
`(false, none, "No verification request found")` and leaves the database
untouched. -/
theorem verify_code_no_request
    (db : DB) (user : User) (uid now : Nat) (phone code : String)
    (hu : user.id = some uid)
    (hnone : ∀ r ∈ db.verifications,
      ¬(r.user_id = uid ∧ r.phone_number = clean_phone_number phone ∧
        r.status = VerificationStatus.pending)) :
    verify_code db now user phone code = (db, false, none, "No verification request found") := by
  have hfind : findPendingVerification db uid (clean_phone_number phone) = none :=
    pickLatest_eq_none fun r hr => decide_eq_false (hnone r hr)
  simp only [verify_code, hu, hfind]

/-- Witness for `verify_code_no_request` on a database with no
verification rows. -/
theorem verify_code_no_request_witness :
    verify_code emptyVerDB 100 sampleUser "5551234567" "123456" =
      (emptyVerDB, false, none, "No verification request found") :=
  verify_code_no_request emptyVerDB sampleUser 1 100 "5551234567" "123456" rfl (by simp [emptyVerDB])

/-- Claim C2: on the PENDING, non-expired record found for the user and the
canonical phone number, with attempts < max_attempts, a submitted code
different from the stored code increments attempts by one; if the new count
reaches max_attempts the record becomes FAILED with message
"Maximum attempts exceeded", otherwise it stays PENDING with message
"Invalid code. N attempts remaining" for N = max_attempts − (attempts+1). -/
theorem verify_code_wrong_code_correct
    (db : DB) (user : User) (uid now : Nat) (phone code : String)
    (v : PhoneVerification)
    (hu : user.id = some uid)
    (hfind : findPendingVerification db uid (clean_phone_number phone) = some v)
    (hexp : now ≤ v.expires_at)
    (hatt : v.attempts < v.max_attempts)
    (hcode : v.verification_code ≠ code) :
    (v.attempts + 1 = v.max_attempts →
      verify_code db now user phone code =
        (updateVerificationRow db
          { v with attempts := v.attempts + 1, updated_at := now, status := VerificationStatus.failed },
         false,
         some { v with attempts := v.attempts + 1, updated_at := now, status := VerificationStatus.failed },
         "Maximum attempts exceeded")) ∧
    (v.attempts + 1 < v.max_attempts →
      verify_code db now user phone code =
        (updateVerificationRow db { v with attempts := v.attempts + 1, updated_at := now },
         false,
         some { v with attempts := v.attempts + 1, updated_at := now },
         "Invalid code. " ++ toString (v.max_attempts - (v.attempts + 1)) ++
           " attempts remaining")) := by
  constructor
  · intro hmax
    simp only [verify_code, hu, hfind]
    rw [if_neg (Nat.not_lt.mpr hexp), if_neg (Nat.not_le.mpr hatt), if_neg hcode,
      if_pos (Nat.le_of_eq hmax.symm)]
  · intro hlt
    simp only [verify_code, hu, hfind]
    rw [if_neg (Nat.not_lt.mpr hexp), if_neg (Nat.not_le.mpr hatt), if_neg hcode,
      if_neg (Nat.not_le.mpr hlt)]

/-- Witness for `verify_code_wrong_code_correct` on `sampleDB` with wrong
code `"000000"`: one attempt is consumed and two remain. -/
theorem verify_code_wrong_code_witness :
    sampleVer.verification_code ≠ "000000" ∧
    (verify_code sampleDB 100 sampleUser "5551234567" "000000").2.2.2 =
      "Invalid code. 2 attempts remaining" := by
  have h := verify_code_wrong_code_correct sampleDB sampleUser 1 100 "5551234567" "000000"
    sampleVer rfl (by decide) (by decide) (by decide) (by decide)
  refine ⟨by decide, ?_⟩
  rw [h.2 (by decide)]
  decide

lemma recent_query_false_of_stale {uid : Nat} {cleaned : String} {t t1 : Nat}
    (r : PhoneVerification)
    (hr : r.user_id = uid → r.phone_number = cleaned →
      r.status = VerificationStatus.pending → r.created_at + 60 ≤ t1)
    (ht : t1 ≤ t) :
    recentVerificationQuery uid cleaned t r = false := by
  simp only [recentVerificationQuery, decide_eq_false_iff_not]
  rintro ⟨h1, h2, h3, h4⟩
  exact absurd h3 (Nat.not_lt.mpr (Nat.le_trans (hr h1 h2 h4) ht))

/-- Claim C6: when every PENDING row for the user and canonical phone was
created at least 60 seconds before `t1`, a send at `t1` inserts and returns a
fresh row; a second send at `t2` with `t1 ≤ t2 < t1 + 60` returns that
identical row and leaves the database unchanged; a send at `t3 ≥ t1 + 60`
inserts and returns a new row with a different id. -/
theorem send_code_throttle
    (db : DB) (user : User) (uid t1 t2 t3 id1 id2 : Nat)
    (phone code1 code2 sms1 sms2 : String)
    (hu : user.id = some uid)
    (hstale : ∀ r ∈ db.verifications, r.user_id = uid →
      r.phone_number = clean_phone_number phone →
      r.status = VerificationStatus.pending → r.created_at + 60 ≤ t1)
    (h12 : t1 ≤ t2) (h2 : t2 < t1 + 60) (h3 : t1 + 60 ≤ t3)
    (hid : id2 ≠ id1) :
    send_verification_code db t1 id1 code1 sms1 user phone =
      ({ db with verifications := db.verifications ++
          [freshVerification uid t1 id1 (clean_phone_number phone) code1 sms1] },
        some (freshVerification uid t1 id1 (clean_phone_number phone) code1 sms1)) ∧
    send_verification_code
        { db with verifications := db.verifications ++
          [freshVerification uid t1 id1 (clean_phone_number phone) code1 sms1] }
        t2 id2 code2 sms2 user phone =
      ({ db with verifications := db.verifications ++
          [freshVerification uid t1 id1 (clean_phone_number phone) code1 sms1] },
        some (freshVerification uid t1 id1 (clean_phone_number phone) code1 sms1)) ∧
    send_verification_code
        { db with verifications := db.verifications ++
          [freshVerification uid t1 id1 (clean_phone_number phone) code1 sms1] }
        t3 id2 code2 sms2 user phone =
      ({ db with verifications := (db.verifications ++
          [freshVerification uid t1 id1 (clean_phone_number phone) code1 sms1]) ++
          [freshVerification uid t3 id2 (clean_phone_number phone) code2 sms2] },
        some (freshVerification uid t3 id2 (clean_phone_number phone) code2 sms2)) ∧
    (freshVerification uid t3 id2 (clean_phone_number phone) code2 sms2).id ≠
      (freshVerification uid t1 id1 (clean_phone_number phone) code1 sms1).id := by
  have hpick1 : pickLatest (recentVerificationQuery uid (clean_phone_number phone) t1)
      db.verifications = none :=
    pickLatest_eq_none fun r hr =>
      recent_query_false_of_stale r (hstale r hr) (Nat.le_refl t1)
  have hq1 : recentVerificationQuery uid (clean_phone_number phone) t2
      (freshVerification uid t1 id1 (clean_phone_number phone) code1 sms1) = true := by
    simp only [recentVerificationQuery, decide_eq_true_eq]
    exact ⟨rfl, rfl, h2, rfl⟩
  have hpick2 : pickLatest (recentVerificationQuery uid (clean_phone_number phone) t2)
      (db.verifications ++
        [freshVerification uid t1 id1 (clean_phone_number phone) code1 sms1]) =
      some (freshVerification uid t1 id1 (clean_phone_number phone) code1 sms1) :=
    pickLatest_append_single
      (fun r hr => recent_query_false_of_stale r (hstale r hr) h12) hq1
  have hcs : can_send_new_code t2
      (freshVerification uid t1 id1 (clean_phone_number phone) code1 sms1) = false :=
    decide_eq_false (Nat.not_lt.mpr (Nat.le_of_lt h2))
  have hpick3 : pickLatest (recentVerificationQuery uid (clean_phone_number phone) t3)
      (db.verifications ++
        [freshVerification uid t1 id1 (clean_phone_number phone) code1 sms1]) = none := by
    apply pickLatest_eq_none
    intro r hr
    rcases List.mem_append.mp hr with hmem | hmem
    · exact recent_query_false_of_stale r (hstale r hmem)
        (Nat.le_trans (Nat.le_add_right t1 60) h3)
    · have hr1 : r = freshVerification uid t1 id1 (clean_phone_number phone) code1 sms1 :=
        List.mem_singleton.mp hmem

      subst hr1
      simp only [recentVerificationQuery, decide_eq_false_iff_not]
      rintro ⟨-, -, h3', -⟩
      exact absurd h3' (Nat.not_lt.mpr h3)
  refine ⟨?_, ?_, ?_, hid⟩
  · simp only [send_verification_code, hu, hpick1]
  · simp only [send_verification_code, hu, hpick2, hcs]
    simp
  · simp only [send_verification_code, hu, hpick3]

/-- Witness for `send_code_throttle`: an empty verification table, a first
send at `t1 = 100` creating row id 1, a repeat at `t2 = 130` returning the
same row, a send at `t3 = 160` creating row id 2. -/
theorem send_code_throttle_witness :
    (100 : Nat) ≤ 130 ∧
    send_verification_code emptyVerDB 100 1 "111111" "s1" sampleUser "5551234567" =
      ({ emptyVerDB with verifications :=
          [freshVerification 1 100 1 (clean_phone_number "5551234567") "111111" "s1"] },
        some (freshVerification 1 100 1 (clean_phone_number "5551234567") "111111" "s1")) ∧
    (send_verification_code
        { emptyVerDB with verifications :=
          [freshVerification 1 100 1 (clean_phone_number "5551234567") "111111" "s1"] }
        130 2 "222222" "s2" sampleUser "5551234567").2 =
      some (freshVerification 1 100 1 (clean_phone_number "5551234567") "111111" "s1") ∧
    (send_verification_code
        { emptyVerDB with verifications :=
          [freshVerification 1 100 1 (clean_phone_number "5551234567") "111111" "s1"] }
        160 2 "222222" "s2" sampleUser "5551234567").2 =
      some (freshVerification 1 160 2 (clean_phone_number "5551234567") "222222" "s2") := by
  have h := send_code_throttle emptyVerDB sampleUser 1 100 130 160 1 2
    "5551234567" "111111" "222222" "s1" "s2" rfl (by simp [emptyVerDB])
    (by decide) (by decide) (by decide) (by decide)
  refine ⟨by decide, ?_, ?_, ?_⟩
  · have h1 := h.1
    simpa using h1
  · exact congrArg Prod.snd h.2.1
  · exact congrArg Prod.snd h.2.2.1

lemma updateUserRow_verifications (db : DB) (u : User) :
    (updateUserRow db u).verifications = db.verifications := rfl

lemma getUserById_updateUserRow {db : DB} {uid : Nat} {eu : User} (u' : User)
    (hlookup : db.users.find? (fun x => decide (x.id = some uid)) = some eu)
    (hu' : u'.id = some uid) :
    getUserById (updateUserRow db u') (some uid) = some u' := by
  have h := find_replace_user uid u' hu' db.users eu hlookup
  simpa [getUserById, updateUserRow] using h

lemma send_code_attempts_inv (db : DB) (user : User) (now newId : Nat)
    (newCode smsId phone : String)
    (hdb : ∀ v ∈ db.verifications, v.attempts ≤ v.max_attempts) :
    (∀ w ∈ (send_verification_code db now newId newCode smsId user phone).1.verifications,
      w.attempts ≤ w.max_attempts) ∧
    (∀ w, (send_verification_code db now newId newCode smsId user phone).2 = some w →
      w ∈ db.verifications ∨ w.attempts = 0) := by
  cases hid : user.id with
  | none =>
    constructor
    · intro w hw
      simp only [send_verification_code, hid] at hw
      exact hdb w hw
    · intro w hw
      simp only [send_verification_code, hid] at hw
      cases hw
  | some uid =>
    cases hpick : pickLatest (recentVerificationQuery uid (clean_phone_number phone) now)
        db.verifications with
    | none =>
      constructor
      · intro w hw
        simp only [send_verification_code, hid, hpick] at hw
        rcases List.mem_append.mp hw with hm | hm
        · exact hdb w hm
        · rw [List.mem_singleton.mp hm]
          exact Nat.zero_le _
      · intro w hw
        simp only [send_verification_code, hid, hpick, Option.some.injEq] at hw
        right
        rw [← hw]
        rfl
    | some r =>
      cases hcs : can_send_new_code now r with
      | true =>
        constructor
        · intro w hw
          simp only [send_verification_code, hid, hpick, hcs, if_true] at hw
          rcases List.mem_append.mp hw with hm | hm
          · exact hdb w hm
          · rw [List.mem_singleton.mp hm]
            exact Nat.zero_le _
        · intro w hw
          simp only [send_verification_code, hid, hpick, hcs, if_true,
            Option.some.injEq] at hw
          right
          rw [← hw]
          rfl
      | false =>
        constructor
        · intro w hw
          simp only [send_verification_code, hid, hpick, hcs, Bool.false_eq_true,
            if_false] at hw
          exact hdb w hw
        · intro w hw
          simp only [send_verification_code, hid, hpick, hcs, Bool.false_eq_true,
            if_false, Option.some.injEq] at hw
          left
          rw [← hw]
          exact (pickLatest_mem hpick).1

lemma verify_code_attempts_inv (db : DB) (user : User) (now : Nat) (phone code : String)
    (hdb : ∀ v ∈ db.verifications, v.attempts ≤ v.max_attempts) :
    ∀ w ∈ (verify_code db now user phone code).1.verifications,
      w.attempts ≤ w.max_attempts := by
  cases hid : user.id with
  | none =>
    intro w hw
    simp only [verify_code, hid] at hw
    exact hdb w hw
  | some uid =>
    cases hfind : findPendingVerification db uid (clean_phone_number phone) with
    | none =>
      intro w hw
      simp only [verify_code, hid, hfind] at hw
      exact hdb w hw
    | some v =>
      have hvmem := (pickLatest_mem hfind).1
      by_cases hexp : now > v.expires_at
      · intro w hw
        simp only [verify_code, hid, hfind, if_pos hexp] at hw
        rcases mem_update_verifications hw with rfl | hm
        · exact hdb v hvmem
        · exact hdb w hm
      · by_cases hatt : v.attempts ≥ v.max_attempts
        · intro w hw
          simp only [verify_code, hid, hfind, if_neg hexp, if_pos hatt] at hw
          rcases mem_update_verifications hw with rfl | hm
          · exact hdb v hvmem
          · exact hdb w hm
        · have hlt : v.attempts < v.max_attempts := Nat.not_le.mp hatt
          by_cases hcode : v.verification_code = code
          · intro w hw
            simp only [verify_code, hid, hfind, if_neg hexp, if_neg hatt,
              if_pos hcode, updateUserRow_verifications] at hw
            rcases mem_update_verifications hw with rfl | hm
            · exact Nat.succ_le_of_lt hlt
            · exact hdb w hm
          · by_cases hmax : v.attempts + 1 ≥ v.max_attempts
            · intro w hw
              simp only [verify_code, hid, hfind, if_neg hexp, if_neg hatt,
                if_neg hcode, if_pos hmax] at hw
              rcases mem_update_verifications hw with rfl | hm
              · exact Nat.succ_le_of_lt hlt
              · exact hdb w hm
            · intro w hw
              simp only [verify_code, hid, hfind, if_neg hexp, if_neg hatt,
                if_neg hcode, if_neg hmax] at hw
              rcases mem_update_verifications hw with rfl | hm
              · exact Nat.succ_le_of_lt hlt
              · exact hdb w hm

/-- Claim C8: if every verification row satisfies attempts ≤ max_attempts
(0 ≤ attempts holds by the `Nat` type of the field), then after `send_code`
every row still does and any returned row is either pre-existing or has
attempts = 0, and after `verify_code` every row still does: attempts are
incremented only on the attempts < max_attempts path. -/
theorem attempts_invariant_preserved (db : DB) (user : User) (now newId : Nat)
    (newCode smsId phone code : String)
    (hdb : ∀ v ∈ db.verifications, v.attempts ≤ v.max_attempts) :
    (∀ w ∈ (send_verification_code db now newId newCode smsId user phone).1.verifications,
      w.attempts ≤ w.max_attempts) ∧
    (∀ w, (send_verification_code db now newId newCode smsId user phone).2 = some w →
      w ∈ db.verifications ∨ w.attempts = 0) ∧
    (∀ w ∈ (verify_code db now user phone code).1.verifications,
      w.attempts ≤ w.max_attempts) :=
  ⟨(send_code_attempts_inv db user now newId newCode smsId phone hdb).1,
   (send_code_attempts_inv db user now newId newCode smsId phone hdb).2,
   verify_code_attempts_inv db user now phone code hdb⟩

/-- Witness for `attempts_invariant_preserved` on `sampleDB`: after one wrong
code the row holds attempts 1 ≤ max_attempts 3. -/
theorem attempts_invariant_witness :
    (∀ v ∈ sampleDB.verifications, v.attempts ≤ v.max_attempts) ∧
    ({ sampleVer with attempts := 1, updated_at := 100 } : PhoneVerification).attempts ≤
      ({ sampleVer with attempts := 1, updated_at := 100 } : PhoneVerification).max_attempts := by
  have h := attempts_invariant_preserved sampleDB sampleUser 100 9 "999999" "s9"
    "5551234567" "000000" (by decide)
  exact ⟨by decide, h.2.2 _ (by decide)⟩

/-- Claim C9: when a user with the provider's email exists, the stored
first_name and updated_at change only if the provider's given name differs
from the stored first_name; when they are equal both are unchanged; in every
case the persisted (re-fetched) user row is returned. -/
theorem create_or_update_user_first_name_frame
    (db : DB) (now newUserId newAccountId uid : Nat) (d : OAuthData)
    (provider : OAuthProvider) (eu : User) (g : String)
    (hfind : db.users.find? (fun x => decide (x.email = d.email)) = some eu)
    (hg : d.given_name = some g)
    (hid : eu.id = some uid)
    (hlookup : db.users.find? (fun x => decide (x.id = some uid)) = some eu) :
    (g = eu.first_name →
      create_or_update_user db now newUserId newAccountId d provider = (db, some eu)) ∧
    (g ≠ eu.first_name →
      create_or_update_user db now newUserId newAccountId d provider =
        (updateUserRow db { eu with first_name := g, updated_at := now },
         some { eu with first_name := g, updated_at := now })) := by
  constructor
  · intro heq
    simp only [create_or_update_user, hfind, hg, Option.getD_some]
    rw [if_neg (not_not_intro heq.symm)]
    rw [hid]
    simp only [getUserById]
    rw [hlookup]
  · intro hne
    simp only [create_or_update_user, hfind, hg, Option.getD_some]
    rw [if_pos (Ne.symm hne)]
    rw [hid]
    rw [getUserById_updateUserRow _ hlookup rfl]

/-- Profile data for the witness: same email as `sampleUser`, new given
name. -/
def sampleOAuthData : OAuthData :=
  { id := "google_user_1", email := "demo@example.com",
    given_name := some "Demi", family_name := none }

/-- Witness for `create_or_update_user_first_name_frame`: the provider sends
given name `"Demi"` for the stored `"Demo"`, so first_name and updated_at
change and the persisted row is returned. -/
theorem create_or_update_user_witness :
    ("Demi" : String) ≠ sampleUser.first_name ∧
    (create_or_update_user emptyVerDB 50 10 11 sampleOAuthData OAuthProvider.google).2 =
      some { sampleUser with first_name := "Demi", updated_at := 50 } := by
  have h := create_or_update_user_first_name_frame emptyVerDB 50 10 11 1 sampleOAuthData
    OAuthProvider.google sampleUser "Demi" (by decide) rfl rfl (by decide)
  exact ⟨by decide, congrArg Prod.snd (h.2 (by decide))⟩

/-- Claim C10: `get_verification_status` returns the row with the greatest
created_at among all rows for the user id and canonical phone number,
regardless of status, and returns `none` when the user's id is unset or no
such row exists. -/
theorem get_verification_status_correct
    (db : DB) (user : User) (phone : String) :
    (user.id = none → get_verification_status db user phone = none) ∧
    (∀ uid, user.id = some uid →
      ((∀ r ∈ db.verifications,
          ¬(r.user_id = uid ∧ r.phone_number = clean_phone_number phone)) →
        get_verification_status db user phone = none) ∧
      (∀ v, get_verification_status db user phone = some v →
        v ∈ db.verifications ∧ v.user_id = uid ∧
        v.phone_number = clean_phone_number phone ∧
        ∀ s ∈ db.verifications, s.user_id = uid →
          s.phone_number = clean_phone_number phone →
          s.created_at ≤ v.created_at)) := by
  constructor
  · intro h0
    simp only [get_verification_status, h0]
  · intro uid hu
    constructor
    · intro hnone
      simp only [get_verification_status, hu]
      exact pickLatest_eq_none fun r hr => decide_eq_false (hnone r hr)
    · intro v hv
      simp only [get_verification_status, hu] at hv
      have hm := pickLatest_mem hv
      have hp := hm.2
      simp only [decide_eq_true_eq] at hp
      refine ⟨hm.1, hp.1, hp.2, ?_⟩
      intro s hs h1 h2
      exact pickLatest_ge hv s hs (decide_eq_true ⟨h1, h2⟩)

/-- An expired, newer verification row for the same user and phone. -/
def sampleVer2 : PhoneVerification :=
  { sampleVer with
    id := 8
    status := VerificationStatus.expired
    created_at := 50
    updated_at := 50 }

/-- Database with a PENDING row (created 0) and an EXPIRED row (created 50)
for the same user and phone. -/
def statusDB : DB :=
  { users := [sampleUser], verifications := [sampleVer, sampleVer2],
    oauth_accounts := [] }

/-- Witness for `get_verification_status_correct`: the newer row is returned
even though its status is EXPIRED, and it dominates the older row's
created_at. -/
theorem get_verification_status_witness :
    get_verification_status statusDB sampleUser "5551234567" = some sampleVer2 ∧
    sampleVer2 ∈ statusDB.verifications ∧
    sampleVer2.status = VerificationStatus.expired ∧
    sampleVer.created_at ≤ sampleVer2.created_at := by
  have h := ((get_verification_status_correct statusDB sampleUser "5551234567").2 1 rfl).2
    sampleVer2 (by decide)
  exact ⟨by decide, h.1, by decide, h.2.2.2 sampleVer (by decide) (by decide) (by decide)⟩

/-- Claim C4, counterexample: canonicalization is not idempotent.  A 9-digit
input canonicalizes to a 10-character string starting with `+`, and the
second pass hits the `len == 10` branch and prefixes `+1` again:
`canon "234567890" = "+234567890"` but `canon "+234567890" = "+1+234567890"`. -/
theorem clean_phone_number_not_idempotent :
    clean_phone_number (clean_phone_number "234567890") ≠
      clean_phone_number "234567890" := by decide

/-- Claim C4, amended: canonicalization is idempotent for every input whose
canonical form does not have exactly 10 characters.  (When the canonical form
has length 10 the `len == 10` branch fires again on the second pass and
prefixes another `+1`.) -/
theorem clean_phone_number_idem_of_length_ne_ten (s : String)
    (h : (clean_phone_number s).length ≠ 10) :
    clean_phone_number (clean_phone_number s) = clean_phone_number s := by
  have h' : (cleanChars s.data).length ≠ 10 := h
  exact congrArg String.mk (cleanChars_idem s.data h')

/-- Witness for `clean_phone_number_idem_of_length_ne_ten` at the concrete
input `"5551234567"`, whose canonical form `"+15551234567"` has length 12. -/
theorem clean_phone_number_idem_witness :
    (clean_phone_number "5551234567").length ≠ 10 ∧
      clean_phone_number (clean_phone_number "5551234567") =
        clean_phone_number "5551234567" :=
  ⟨by decide, clean_phone_number_idem_of_length_ne_ten "5551234567" (by decide)⟩

/-- Claim C5, counterexample: the first canonicalization step keeps every `+`
of the input, not just a leading one, so the intermediate cleaned string of
`"12+34"` contains a `+` that is not its first character. -/
theorem cleaned_phone_plus_not_only_leading :
    ¬ onlyLeadingPlus (cleaned_phone "12+34") := by decide

/-- Claim C5, amended: the first canonicalization step removes every character
that is neither a digit nor a `+`; the intermediate cleaned string consists
only of digits and `+` characters, but every `+` of the input is kept in
place, not just a leading one. -/
theorem cleaned_phone_digits_or_plus (s : String) :
    (cleaned_phone s).data.all (fun c => c.isDigit || c == '+') = true := by
  apply List.all_eq_true.mpr
  intro c hc
  have hc' : c ∈ s.data.filter (fun c => c.isDigit || c == '+') := hc
  exact (List.mem_filter.mp hc').2

end SmsSignup
